import Mathlib

/-!
# StyleScope — Context Resolution & Quality-Scoring Pipeline, verified claims

Shallow embedding of the core pipeline of the StyleScope repository
(`backend/scorer.py`, `backend/books_upsert.py`, `backend/api.py`,
`backend/book_context.py`, `backend/hardcover_client.py`,
`backend/google_books_client.py`) together with theorems settling the
frozen specification claims.

Modelling conventions:
* Python dict fields that the code reads with `.get` are `Option` fields;
  Python truthiness of strings ("" is falsy) is modelled explicitly.
* The weighted-score arithmetic is modelled twice: bit-exactly, with
  IEEE-754 binary64 operations over their exact dyadic-rational values
  (`calculate_overall_float`), and as the exact-rational idealization
  (`calculate_overall`) whose one-ulp divergence at tie inputs does not
  affect the `score_book`-level properties stated here.  Python `round`
  (round-half-to-even) is `pyRound` / `round_half_even_frac`.
* Network transports (HTTP requests to providers and to the LLM) are
  universally quantified inputs: a transport either raises (an error
  string) or yields a response value.
* SQLite tables with a UNIQUE natural key are modelled as lists of rows;
  `INSERT .. ON CONFLICT DO UPDATE` updates the first matching row.
-/

namespace StyleScope

/-! ## Python string primitives

Structurally recursive versions of the Python string operations the code
uses (`str.lower`, `str.strip`, `str.split`, `in`, `" ".join`), defined
over the character list of a `String`. -/

/-- Python `str.lower` (ASCII case folding). -/
def py_lower (s : String) : String := ⟨s.data.map Char.toLower⟩

/-- Strip leading and trailing whitespace from a character list. -/
def strip_chars (l : List Char) : List Char :=
  ((l.dropWhile Char.isWhitespace).reverse.dropWhile Char.isWhitespace).reverse

/-- Python `str.strip` with no argument: remove leading and trailing
whitespace. -/
def py_strip (s : String) : String := ⟨strip_chars s.data⟩

/-- Tokenizer for Python `str.split()` with no argument: split on runs of
whitespace, dropping empty tokens.  `acc` holds the current token
reversed. -/
def split_ws_aux : List Char → List Char → List String
  | [], acc => if acc = [] then [] else [⟨acc.reverse⟩]
  | c :: rest, acc =>
    if c.isWhitespace then
      if acc = [] then split_ws_aux rest []
      else ⟨acc.reverse⟩ :: split_ws_aux rest []
    else split_ws_aux rest (c :: acc)

/-- Python `str.split()` with no argument. -/
def py_split_ws (s : String) : List String := split_ws_aux s.data []

/-- Splitter for Python `str.split(sep)` with a one-character separator:
empty pieces are kept, and splitting the empty string yields `[""]`. -/
def split_on_aux (sep : Char) : List Char → List Char → List String
  | [], acc => [⟨acc.reverse⟩]
  | c :: rest, acc =>
    if c = sep then ⟨acc.reverse⟩ :: split_on_aux sep rest []
    else split_on_aux sep rest (c :: acc)

/-- Python `str.split(sep)` for a one-character separator. -/
def py_split_on (sep : Char) (s : String) : List String :=
  split_on_aux sep s.data []

/-- Python `sep.join(parts)`. -/
def py_join (sep : String) : List String → String
  | [] => ""
  | [x] => x
  | x :: y :: rest => x ++ sep ++ py_join sep (y :: rest)

/-! ## Rational-number rounding (Python `round`)

Python `round` rounds to the nearest integer, ties to the even integer.
Score values coming out of the LLM JSON are modelled as integers (the
rubric's 0–100 scale), so the weighted sum `0.40·r + 0.15·(g+p+pr+pa)`
is exactly the rational `(40·r + 15·(g+p+pr+pa)) / 100`; its Python
rounding is computed integer-exactly by `pyRoundCent`, and
`pyRoundCent_eq_pyRound` proves it agrees with the direct rational
transliteration `pyRound`. -/

/-- Python `round` on an exact rational: nearest integer, ties to even. -/
def pyRound (q : ℚ) : ℤ :=
  let f := ⌊q⌋
  let frac := q - f
  if frac < 1/2 then f
  else if 1/2 < frac then f + 1
  else if f % 2 = 0 then f else f + 1

/-- `round (k / 100)` computed with integer division: nearest integer,
ties to even. -/
def pyRoundCent (k : ℤ) : ℤ :=
  let d := k / 100
  let m := k % 100
  if m < 50 then d
  else if 50 < m then d + 1
  else if d % 2 = 0 then d else d + 1

/-! ### Exact IEEE-754 binary64 arithmetic

The weighted sum in `scorer._calculate_overall` is computed by CPython in
binary64 doubles.  A finite double is a dyadic rational, so binary64
arithmetic is modelled exactly over ℚ: every operation takes the exact
rational result and rounds it to 53 significant bits, nearest, ties to
even.  `fp_norm` scales a positive fraction `a / b` by powers of two until
the significand window `[2^52, 2^53)` is reached (the fuel covers the full
exponent range of finite doubles; subnormal underflow and overflow to
infinity, far outside the rubric's magnitudes, are not modelled). -/

/-- Round-half-to-even of the fraction `n / d`, for `d > 0` (Python
`round` applied to an exact fraction). -/
def round_half_even_frac (n d : ℤ) : ℤ :=
  let q := n / d
  let r := n % d
  if 2 * r < d then q
  else if d < 2 * r then q + 1
  else if q % 2 = 0 then q else q + 1

/-- Scale the positive fraction `a / b` by powers of two (tracking the
exponent `s`) until `2^52 ≤ a / b < 2^53`. -/
def fp_norm : ℕ → ℤ → ℤ → ℤ → ℤ × ℤ × ℤ
  | 0, a, b, s => (a, b, s)
  | fuel + 1, a, b, s =>
    if a < 4503599627370496 * b then fp_norm fuel (2 * a) b (s - 1)
    else if 9007199254740992 * b ≤ a then fp_norm fuel a (2 * b) (s + 1)
    else (a, b, s)

/-- The binary64 double nearest to the exact fraction `n / d` (for
`d > 0`), as the exact rational value it represents: round the significand
to 53 bits, nearest, ties to even. -/
def fp64_round_frac (n d : ℤ) : ℚ :=
  if n = 0 then 0
  else
    let sign : ℤ := if n < 0 then -1 else 1
    let v := fp_norm 1300 (n.natAbs : ℤ) d 0
    let m := round_half_even_frac v.1 v.2.1
    let s := v.2.2
    if 0 ≤ s then mkRat (sign * m * ((2 ^ s.toNat : ℕ) : ℤ)) 1
    else mkRat (sign * m) (2 ^ (-s).toNat)

/-- IEEE-754 binary64 multiplication on exact double values. -/
def fp_mul (x y : ℚ) : ℚ :=
  fp64_round_frac (x.num * y.num) ((x.den : ℤ) * (y.den : ℤ))

/-- IEEE-754 binary64 addition on exact double values. -/
def fp_add (x y : ℚ) : ℚ :=
  fp64_round_frac (x.num * (y.den : ℤ) + y.num * (x.den : ℤ)) ((x.den : ℤ) * (y.den : ℤ))

/-- CPython's int-to-float conversion (exact below `2^53`, rounded above). -/
def fp_of_int (r : ℤ) : ℚ := fp64_round_frac r 1

/-- The double denoted by the literal `0.40` in the source. -/
def fp_lit_0_40 : ℚ := fp64_round_frac 2 5

/-- The double denoted by the literal `0.15` in the source. -/
def fp_lit_0_15 : ℚ := fp64_round_frac 3 20

/-- Python `round` applied to a float: round-half-to-even of the double's
exact value. -/
def py_round_float (f : ℚ) : ℤ := round_half_even_frac f.num (f.den : ℤ)

/-- The source's weighted sum
`(r * 0.40) + (g * 0.15) + (p * 0.15) + (pr * 0.15) + (pa * 0.15)`
evaluated left-associated in binary64, exactly as CPython does. -/
def float_weighted_sum (r g p pr pa : ℤ) : ℚ :=
  fp_add (fp_add (fp_add (fp_add
    (fp_mul (fp_of_int r) fp_lit_0_40)
    (fp_mul (fp_of_int g) fp_lit_0_15))
    (fp_mul (fp_of_int p) fp_lit_0_15))
    (fp_mul (fp_of_int pr) fp_lit_0_15))
    (fp_mul (fp_of_int pa) fp_lit_0_15)

/-! ## `backend/scorer.py` — Scoring Engine -/

/-- The `"scores"` sub-dictionary of a parsed LLM response.  Each of the five
rubric dimensions may be present or absent; `_calculate_overall` reads them
with `.get(key, 70)` and `score_book` checks all five are present. -/
structure Scores where
  readability : Option ℤ
  grammar : Option ℤ
  polish : Option ℤ
  prose : Option ℤ
  pacing : Option ℤ
deriving DecidableEq

/-- `scorer._calculate_overall` under exact-rational arithmetic: defaults
70, Python `round` of the exact weighted sum
`(40·r + 15·(g+p+pr+pa)) / 100`, then the cap
`if r < 70 and overall > 75`.  This idealizes the source's binary64
float sum as an exact rational; at exact-tie inputs the two can differ by
one (see `calculate_overall_float`, the bit-exact translation).  It is the
model used inside `score_book`, whose stated properties (cap, range bound
under in-range inputs, recomputation of the model-reported overall) hold
under either arithmetic. -/
def calculate_overall (scores : Scores) : ℤ :=
  let r := scores.readability.getD 70
  let g := scores.grammar.getD 70
  let p := scores.polish.getD 70
  let pr := scores.prose.getD 70
  let pa := scores.pacing.getD 70
  let overall := pyRoundCent (40 * r + 15 * (g + p + pr + pa))
  if r < 70 ∧ overall > 75 then 75 else overall

/-- `scorer._calculate_overall`, bit-exact: the weighted sum
`r*0.40 + g*0.15 + p*0.15 + pr*0.15 + pa*0.15` evaluated in IEEE-754
binary64 exactly as CPython evaluates it, Python `round` of the resulting
double, then the cap `if r < 70 and overall > 75`. -/
def calculate_overall_float (scores : Scores) : ℤ :=
  let r := scores.readability.getD 70
  let g := scores.grammar.getD 70
  let p := scores.polish.getD 70
  let pr := scores.prose.getD 70
  let pa := scores.pacing.getD 70
  let overall := py_round_float (float_weighted_sum r g p pr pa)
  if r < 70 ∧ overall > 75 then 75 else overall

/-- Is the first list a leading segment of the second? -/
def leading_seg : List Char → List Char → Bool
  | [], _ => true
  | _ :: _, [] => false
  | a :: as, b :: bs => a == b && leading_seg as bs

/-- Does the first list occur as a contiguous segment of the second? -/
def seg_of (needle : List Char) : List Char → Bool
  | [] => leading_seg needle []
  | c :: rest => leading_seg needle (c :: rest) || seg_of needle rest

/-- Substring containment, `needle in hay` on Python strings (the empty
needle is contained in every string, as in Python). -/
def str_contains (hay needle : String) : Bool :=
  seg_of needle.toList hay.toList

/-- `scorer._classify_error` translated from the source.  The argument is
`last_error`, which is `None` when no attempt recorded an error. -/
def classify_error : Option String → String
  | none => "unknown_error"
  | some msg =>
    if msg = "" then "unknown_error"
    else
      let lower := py_lower msg
      if str_contains msg "500" || str_contains lower "internal server error" then
        "api_error_500"
      else if str_contains msg "429" || str_contains lower "rate limit" then
        "api_error_rate_limit"
      else if str_contains lower "json" || str_contains lower "parse" then
        "json_parse_failure"
      else if str_contains lower "not found" || str_contains msg "404" then
        "book_not_found"
      else if str_contains lower "no context" then
        "no_context_found"
      else
        "scoring_error: " ++ msg

/-- The fields of a JSON object produced by one of the parse strategies that
`score_book` goes on to read or rewrite.  (`reasoning` and `key_phrases`
are carried through `score_book` unchanged and are not modelled.) -/
structure ParsedDoc where
  book_title : String
  author : String
  scores : Scores
  overall_score : Option ℤ
  confidence : ℤ
  flags : List String
  review_count : ℤ
deriving DecidableEq

/-- The synthetic fallback document built by strategy 4 of
`_parse_llm_response`: all five dimensions 50, confidence 0, flag
`"json_parse_failure"`. -/
def fallback_default : ParsedDoc :=
  { book_title := ""
    author := ""
    scores := ⟨some 50, some 50, some 50, some 50, some 50⟩
    overall_score := some 50
    confidence := 0
    flags := ["json_parse_failure"]
    review_count := 0 }

/-- A raw LLM completion text, viewed through the three parse strategies of
`_parse_llm_response`: the outcome of `json.loads` on the raw text, on the
fence-stripped text, and on the outermost-brace extract.  `none` means the
strategy fails (no JSON object obtained). -/
structure RawResponse where
  direct : Option ParsedDoc
  fence_stripped : Option ParsedDoc
  brace_extract : Option ParsedDoc
deriving DecidableEq

/-- `scorer._parse_llm_response`: try the three strategies in order; if all
fail, return the synthetic low-confidence default.  Never returns `None`. -/
def parse_llm_response (t : RawResponse) : ParsedDoc :=
  match t.direct with
  | some d => d
  | none =>
    match t.fence_stripped with
    | some d => d
    | none =>
      match t.brace_extract with
      | some d => d
      | none => fallback_default

/-- `required_score_keys.issubset(scores.keys())` in `score_book`. -/
def required_keys_present (s : Scores) : Bool :=
  s.readability.isSome && s.grammar.isSome && s.polish.isSome
    && s.prose.isSome && s.pacing.isSome

/-- The `ValueError(f"Missing score keys: {missing}")` message raised by
`score_book` (the set of missing keys is rendered in a fixed order; only
the fixed leading text is ever inspected, by `_classify_error`). -/
def missing_keys_msg (s : Scores) : String :=
  let missing :=
    (if s.readability.isSome then [] else ["readability"])
      ++ (if s.grammar.isSome then [] else ["grammar"])
      ++ (if s.polish.isSome then [] else ["polish"])
      ++ (if s.prose.isSome then [] else ["prose"])
      ++ (if s.pacing.isSome then [] else ["pacing"])
  "Missing score keys: " ++ py_join ", " missing

/-- The structured dictionary `score_book` returns. -/
structure ScoreResult where
  book_title : String
  author : String
  scores : Scores
  overall_score : Option ℤ
  confidence : ℤ
  flags : List String
  review_count : ℤ
  scoring_status : String
deriving DecidableEq

/-- The success path of `score_book` after a response passed the
required-keys check: recompute `overall_score` with `_calculate_overall`,
set status `"ok"`, overwrite `review_count` with the caller value, and
append the two low-confidence flags when context is thin. -/
def ok_result (parsed : ParsedDoc) (review_count : ℤ) (context_len : ℕ) : ScoreResult :=
  { book_title := parsed.book_title
    author := parsed.author
    scores := parsed.scores
    overall_score := some (calculate_overall parsed.scores)
    confidence := parsed.confidence
    flags :=
      parsed.flags
        ++ (if review_count < 5 then ["low_confidence: fewer than 5 review-derived snippets"] else [])
        ++ (if context_len < 800 then ["low_confidence: limited context length"] else [])
    review_count := review_count
    scoring_status := "ok" }

/-- The terminal failure dictionary `score_book` returns once every retry
attempt has raised: classify the last error, special-case rate limits. -/
def failure_result (title author : String) (review_count : ℤ)
    (last_error : Option String) : ScoreResult :=
  let ec := classify_error last_error
  let is_rate_limit := ec = "api_error_rate_limit"
  { book_title := title
    author := author
    scores := ⟨none, none, none, none, none⟩
    overall_score := none
    confidence := 0
    flags := if is_rate_limit then ["openrouter_rate_limited"] else [ec]
    review_count := review_count
    scoring_status := if is_rate_limit then "temporarily_unavailable" else "error" }

/-- One attempt of the retry loop, as seen through the LLM transport: either
the HTTP request / response-shape handling raised (an exception message) or
a completion text was obtained (viewed through the parse strategies). -/
inductive AttemptOutcome where
  | fail (msg : String)
  | reply (r : RawResponse)

/-- `config.GEMINI_RETRY_MAX` from `backend/config.py`. -/
def GEMINI_RETRY_MAX : ℕ := 3

/-- The `for attempt in range(1, GEMINI_RETRY_MAX + 1)` retry loop of
`score_book`.  `fuel` is the number of attempts left, `attempt` the
1-based index of the next attempt.  Returns the result together with the
index of the attempt that produced it (= `GEMINI_RETRY_MAX` when the loop
exhausted).  A transport exception or a parsed object missing one of the
five score keys moves to the next attempt recording `last_error`; any
obtained response otherwise succeeds on the spot. -/
def score_attempts (transport : String → ℕ → AttemptOutcome) (prompt : String)
    (title author : String) (review_count : ℤ) (context_len : ℕ) :
    ℕ → ℕ → Option String → ScoreResult × ℕ
  | 0, attempt, last_error => (failure_result title author review_count last_error, attempt - 1)
  | fuel + 1, attempt, last_error =>
    match transport prompt attempt with
    | .fail e =>
      score_attempts transport prompt title author review_count context_len
        fuel (attempt + 1) (some e)
    | .reply r =>
      let parsed := parse_llm_response r
      if required_keys_present parsed.scores then
        (ok_result parsed review_count context_len, attempt)
      else
        score_attempts transport prompt title author review_count context_len
          fuel (attempt + 1) (some (missing_keys_msg parsed.scores))

/-- Fixed prose fragments of `SCORING_PROMPT_TEMPLATE` between the format
placeholders, abbreviated: no code path inspects the prompt text, which is
only handed to the transport. -/
def promptFrag (i : ℕ) : String := "<rubric fragment " ++ toString i ++ ">"

/-- `SCORING_PROMPT_TEMPLATE.format(...)`, with Python `str.format`
resolved: each placeholder is replaced by the argument value verbatim
(escaped double braces render as literal braces; substituted values are
never re-scanned, so braces inside them are inert). -/
def scoring_prompt (title author series genre context : String)
    (review_count : ℤ) : String :=
  promptFrag 0 ++ title ++ promptFrag 1 ++ author ++ promptFrag 2
    ++ toString review_count ++ promptFrag 3 ++ title ++ promptFrag 4
    ++ author ++ promptFrag 5 ++ series ++ promptFrag 6 ++ genre
    ++ promptFrag 7 ++ context

/-- `scorer.score_book`, translated from the source.  `has_api_key` models
`OPENROUTER_API_KEY` being set; `transport` models the OpenRouter HTTP
call (prompt and attempt index to outcome).  Returns the structured result
together with the index of the attempt that produced it. -/
def score_book (has_api_key : Bool)
    (title author series genre subgenre : String)
    (context_text : String) (review_count : ℤ)
    (transport : String → ℕ → AttemptOutcome) : ScoreResult × ℕ :=
  if !has_api_key then
    ({ book_title := title, author := author
       scores := ⟨none, none, none, none, none⟩
       overall_score := none, confidence := 0
       flags := ["missing_openrouter_api_key"]
       review_count := review_count, scoring_status := "error" }, 0)
  else if (py_strip context_text).data.length = 0 then
    ({ book_title := title, author := author
       scores := ⟨none, none, none, none, none⟩
       overall_score := none, confidence := 0
       flags := ["no_context_found"]
       review_count := review_count, scoring_status := "error" }, 0)
  else
    let series_str := if series = "" then "N/A" else series
    let genre_str := genre ++ (if subgenre = "" then "" else " / " ++ subgenre)
    let prompt := scoring_prompt title author series_str genre_str context_text review_count
    score_attempts transport prompt title author review_count context_text.data.length
      GEMINI_RETRY_MAX 1 none

/-! ## `backend/books_upsert.py` — Cache/Upsert Store

The `books` table (UNIQUE natural key `(title, author)`) is a list of
rows; `INSERT .. ON CONFLICT(title, author) DO UPDATE` inserts a fresh
row or rewrites the one existing row with that key. -/

/-- SQL `COALESCE` on two nullable text values. -/
def coalesce (a b : Option String) : Option String :=
  match a with
  | some x => some x
  | none => b

/-- SQL `NULLIF(x, '')`. -/
def nullif_empty (a : Option String) : Option String :=
  match a with
  | some s => if s = "" then none else some s
  | none => none

/-- Python `a or b` on two nullable strings (both `None` and `""` are
falsy; the right operand is returned as-is when the left is falsy). -/
def py_or_str (a b : Option String) : Option String :=
  match a with
  | some s => if s = "" then b else some s
  | none => b

/-- Python truthiness of a nullable string. -/
def truthy_opt_str (o : Option String) : Bool :=
  match o with
  | some s => s ≠ ""
  | none => false

/-- The `"meta"` sub-dictionary of a `fetch_book_context` result, restricted
to the keys `upsert_scored_book` reads. -/
structure CtxMeta where
  description : Option String
  cover_url : Option String
  thumbnail : Option String
  coverUrl : Option String
  isbn13 : Option String
deriving DecidableEq

/-- A `fetch_book_context` result as consumed by `upsert_scored_book`
(fields read with `.get` are optional). -/
structure Ctx where
  context_source : Option String
  ratings_count_estimate : Option ℤ
  review_count : Option ℤ
  meta : Option CtxMeta
deriving DecidableEq

/-- A row of the `books` table, restricted to the columns touched by
`upsert_scored_book` (nullable TEXT columns are `Option String`). -/
structure Row where
  title : String
  author : String
  isbn : Option String
  isbn13 : Option String
  synopsis : Option String
  coverUrl : Option String
  search_normalized : String
  qualityScore : Option ℤ
  technicalQuality : ℤ
  proseStyle : ℤ
  pacing : ℤ
  readability : ℤ
  craftExecution : ℤ
  confidenceLevel : String
  voteCount : ℤ
  spiceLevel : ℤ
  officialContentWarnings : Option String
  scoring_status : String
  context_source : String
  scoredDate : Option String
  first_scored_at : Option String
  last_scored_at : Option String
  times_requested : ℤ
deriving DecidableEq

/-- `books_upsert._normalize_title_author`: lowercase, strip, combine,
collapse whitespace runs, strip. -/
def normalize_title_author (title author : String) : String :=
  py_join " " (py_split_ws (py_strip (py_lower title) ++ " " ++ py_strip (py_lower author)))

/-- The `VALUES` tuple of the upsert (the SQL `excluded` row), built from
the caller arguments exactly as the Python body computes the bound
parameters. -/
def excluded_row (title author : String) (isbn : Option String)
    (scores : ScoreResult) (ctx : Ctx) (official_cw_doc : Option String)
    (spice_level : ℤ) (increment_requested : Bool) (now_iso : String) : Row :=
  let dimension_scores := scores.scores
  let confidence_val := scores.confidence
  let confidence_label :=
    if confidence_val ≥ 70 then "high"
    else if confidence_val ≥ 40 then "medium"
    else "low"
  let ratings_count_estimate := ctx.ratings_count_estimate.getD 0
  let review_count := ctx.review_count.getD 0
  let vote_count_proxy :=
    if ratings_count_estimate ≠ 0 then ratings_count_estimate else review_count
  let meta := ctx.meta.getD ⟨none, none, none, none, none⟩
  let description := meta.description.getD ""
  let cover_url := py_or_str (py_or_str meta.cover_url meta.thumbnail) meta.coverUrl
  let isbn13 := py_or_str meta.isbn13 none
  let scoring_status0 := scores.scoring_status
  let scoring_status :=
    if scoring_status0 = "ok" ∧ confidence_val < 40 then "low_confidence"
    else scoring_status0
  { title := title
    author := author
    isbn := isbn
    isbn13 := isbn13
    synopsis := if description = "" then none else some ⟨description.data.take 4000⟩
    coverUrl := cover_url
    search_normalized := normalize_title_author title author
    qualityScore := scores.overall_score
    technicalQuality := dimension_scores.grammar.getD 0
    proseStyle := dimension_scores.prose.getD 0
    pacing := dimension_scores.pacing.getD 0
    readability := dimension_scores.readability.getD 0
    craftExecution := dimension_scores.polish.getD 0
    confidenceLevel := confidence_label
    voteCount := vote_count_proxy
    spiceLevel := spice_level
    officialContentWarnings := official_cw_doc
    scoring_status := scoring_status
    context_source := ctx.context_source.getD "description_only"
    scoredDate := none
    first_scored_at := some now_iso
    last_scored_at := some now_iso
    times_requested := if increment_requested then 1 else 0 }

/-- The `ON CONFLICT(title, author) DO UPDATE SET` clause, applied to the
existing row `old` with the `excluded` row `e`. -/
def conflict_update (old e : Row) : Row :=
  { old with
    qualityScore := e.qualityScore
    technicalQuality := e.technicalQuality
    proseStyle := e.proseStyle
    pacing := e.pacing
    readability := e.readability
    craftExecution := e.craftExecution
    confidenceLevel := e.confidenceLevel
    voteCount := e.voteCount
    spiceLevel := e.spiceLevel
    officialContentWarnings := e.officialContentWarnings
    scoring_status := e.scoring_status
    context_source := e.context_source
    scoredDate := e.last_scored_at
    last_scored_at := e.last_scored_at
    first_scored_at := coalesce old.first_scored_at e.first_scored_at
    times_requested := old.times_requested + e.times_requested
    synopsis := coalesce (nullif_empty old.synopsis) e.synopsis
    coverUrl := coalesce old.coverUrl e.coverUrl
    isbn := coalesce old.isbn e.isbn
    isbn13 := coalesce old.isbn13 e.isbn13
    search_normalized := e.search_normalized }

/-- Does a row carry the natural key `(title, author)`? -/
def books_key_match (title author : String) (r : Row) : Bool :=
  r.title == title && r.author == author

/-- `INSERT .. ON CONFLICT DO UPDATE` against the UNIQUE(title, author)
constraint: rewrite the (at most one) existing row with the key, else
insert the excluded row. -/
def books_insert_or_update (title author : String) (e : Row) : List Row → List Row
  | [] => [e]
  | r :: rest =>
    if books_key_match title author r then conflict_update r e :: rest
    else r :: books_insert_or_update title author e rest

/-- `books_upsert.upsert_scored_book` (the persistence effect; the
follow-up `SELECT id` and the logged, non-fatal exception path do not
change the stored table). -/
def upsert_scored_book (store : List Row) (title author : String)
    (isbn : Option String) (scores : ScoreResult) (ctx : Ctx)
    (official_cw_doc : Option String) (spice_level : ℤ)
    (increment_requested : Bool) (now_iso : String) : List Row :=
  books_insert_or_update title author
    (excluded_row title author isbn scores ctx official_cw_doc spice_level
      increment_requested now_iso)
    store

/-! ## `backend/api.py` — Quota Guard

The `on_demand_usage` table (UNIQUE `(user_key, year_month)`) is a list
of rows; the current UTC year-month is an explicit argument. -/

/-- A row of the `on_demand_usage` table. -/
structure UsageRow where
  user_key : String
  year_month : String
  count : ℕ
deriving DecidableEq

/-- Does a usage row carry the key `(user_key, year_month)`? -/
def usage_key_match (user_key year_month : String) (r : UsageRow) : Bool :=
  r.user_key == user_key && r.year_month == year_month

/-- `SELECT count FROM on_demand_usage WHERE user_key=? AND year_month=?`. -/
def usage_find? (s : List UsageRow) (user_key year_month : String) : Option UsageRow :=
  s.find? (usage_key_match user_key year_month)

/-- `INSERT .. VALUES (?, ?, 0) ON CONFLICT(user_key, year_month) DO NOTHING`. -/
def usage_ensure_row (s : List UsageRow) (user_key year_month : String) : List UsageRow :=
  if (usage_find? s user_key year_month).isSome then s
  else s ++ [⟨user_key, year_month, 0⟩]

/-- `UPDATE on_demand_usage SET count = count + 1 WHERE user_key=? AND
year_month=?`. -/
def usage_increment (user_key year_month : String) (s : List UsageRow) : List UsageRow :=
  s.map fun r =>
    if usage_key_match user_key year_month r then { r with count := r.count + 1 } else r

/-- Default of `api.ON_DEMAND_MONTHLY_CAP` (env override absent). -/
def ON_DEMAND_MONTHLY_CAP : ℕ := 10

/-- The count stored in the table for `(user_key, year_month)`
(`row["count"] if row else 0`). -/
def usage_count (s : List UsageRow) (user_key year_month : String) : ℕ :=
  ((usage_find? s user_key year_month).map UsageRow.count).getD 0

/-- The `current` value `_check_and_increment_usage` reads after the
ensure-row insert. -/
def usage_current (s : List UsageRow) (user_key year_month : String) : ℕ :=
  usage_count (usage_ensure_row s user_key year_month) user_key year_month

/-- `api._check_and_increment_usage` with the cap and the current UTC
year-month explicit: ensure the row exists, read the count, deny without
incrementing at or above the cap, else increment and allow.  Returns
`((allowed, reported_count), new_table)`. -/
def check_and_increment_usage (cap : ℕ) (s : List UsageRow)
    (user_key year_month : String) : (Bool × ℕ) × List UsageRow :=
  let s1 := usage_ensure_row s user_key year_month
  let current := usage_current s user_key year_month
  if cap ≤ current then ((false, current), s1)
  else ((true, current + 1), usage_increment user_key year_month s1)

/-- `n` sequential `_check_and_increment_usage` calls for the same
identity and month, threading the table. -/
def usage_calls (cap : ℕ) (user_key year_month : String) :
    ℕ → List UsageRow → List UsageRow
  | 0, s => s
  | n + 1, s =>
    usage_calls cap user_key year_month n
      (check_and_increment_usage cap s user_key year_month).2

/-! ## `backend/hardcover_client.py` — Primary adapter

The candidate list is what `search_books` normalized out of the Typesense
hits (an input: the network is external).  The detail/reviews follow-up
queries only enrich fields of the already-chosen candidate and cannot
change which candidate — or whether any — is returned. -/

/-- A normalized Hardcover search candidate, restricted to the fields the
best-match selection reads. -/
structure HCCandidate where
  title : String
  authors : List String
  description : Option String
  reviews : List String
deriving DecidableEq

/-- Is `c` a regex word character (`\w`, ASCII)? -/
def is_word_char (c : Char) : Bool := c.isAlphanum || c == '_'

/-- Word-character test at index `i` of `l` (out of bounds is not a word
character). -/
def word_at (l : List Char) (i : ℕ) : Bool := is_word_char (l.getD i ' ')

/-- Is there a regex word boundary (`\b`) just before index `i`?  Exactly
Python's semantics: the word-characterness changes between the adjacent
positions. -/
def boundary_at (l : List Char) (i : ℕ) : Bool :=
  let left := if i = 0 then false else word_at l (i - 1)
  left != word_at l i

/-- `re.search(r"\b" + re.escape(needle) + r"\b", hay)` as a Bool: the
literal needle occurs somewhere in `hay` flanked by word boundaries. -/
def re_word_search (needle hay : String) : Bool :=
  let n := needle.data
  let h := hay.data
  (List.range (h.length + 1)).any fun i =>
    leading_seg n (h.drop i) && boundary_at h i && boundary_at h (i + n.length)

/-- `search_author.strip().lower().split()[-1]` — the query author's
last-name token. -/
def hc_author_last (search_author : String) : String :=
  (py_split_ws (py_lower (py_strip search_author))).getLastD ""

/-- `" ".join(a.lower() for a in candidate.get("authors", []))`. -/
def joined_authors (authors : List String) : String :=
  py_join " " (authors.map py_lower)

/-- The best-candidate selection of `fetch_hardcover_book`: start from the
first search hit; when a non-blank author was supplied, prefer the first
candidate whose authors contain the query author's last-name token at
word boundaries.  No candidate is ever discarded. -/
def hc_pick_best (candidates : List HCCandidate) (search_author : String) :
    Option HCCandidate :=
  match candidates with
  | [] => none
  | first :: _ =>
    if (py_strip search_author) ≠ "" then
      let author_last := hc_author_last search_author
      match candidates.find?
          (fun c => re_word_search author_last (joined_authors c.authors)) with
      | some c => some c
      | none => some first
    else some first

/-- `hardcover_client.fetch_hardcover_book` (selection logic; the search
and the detail/review enrichment network calls are abstracted into the
`candidates` input, which is `[]` when the search found nothing or
failed). -/
def fetch_hardcover_book (has_api_key : Bool)
    (isbn title author : Option String) (candidates : List HCCandidate) :
    Option HCCandidate :=
  if !has_api_key then none
  else if !truthy_opt_str title && !truthy_opt_str isbn then none
  else hc_pick_best candidates (author.getD "")

/-! ## `backend/google_books_client.py` — Secondary adapter -/

/-- A Google Books volume, restricted to the `volumeInfo` fields the
best-match selection reads. -/
structure GItem where
  title : String
  authors : List String
  description : Option String
  ratingsCount : Option ℤ
deriving DecidableEq

/-- `google_books_client._author_matches`, translated from the source:
full-name containment against each comma-separated author part (bonus 3),
else word-boundary last-name match (bonus 2). -/
def author_matches (author_lower author_last joined : String) : Bool × ℤ :=
  if author_lower = "" then (false, 0)
  else if ((py_split_on ',' joined).map py_strip).any
      (fun part => str_contains part author_lower || str_contains author_lower part) then
    (true, 3)
  else if author_last ≠ "" && re_word_search author_last joined then (true, 2)
  else (false, 0)

/-- The composite match score of one Google Books item.  The source
computes `title + author + description + min(ratingsCount/1000, 1)` as a
float; it is represented here ×1000 in ℤ, exactly (the popularity term
becomes `min(ratingsCount, 1000)`), which is order-isomorphic, so the
`score > best_score` comparisons pick the same item. -/
def g_item_score_x1000 (title_lower author_lower author_last : String)
    (it : GItem) : ℤ :=
  let item_title := py_lower it.title
  let item_authors_joined := joined_authors it.authors
  let title_score : ℤ :=
    if title_lower ≠ "" ∧ title_lower = item_title then 3
    else if title_lower ≠ "" ∧ str_contains item_title title_lower then 2
    else if title_lower ≠ "" ∧ str_contains title_lower item_title then 1
    else 0
  let author_score : ℤ :=
    if author_lower ≠ "" then
      let m := author_matches author_lower author_last item_authors_joined
      if m.1 then m.2 else 0
    else 0
  let desc_score : ℤ := if truthy_opt_str it.description then 1 else 0
  1000 * (title_score + author_score + desc_score)
    + min (it.ratingsCount.getD 0) 1000

/-- The `score > best_score` selection loop of `fetch_google_book`
(`best_score` starts at −1, so the first item always becomes `best`;
ties keep the earlier item). -/
def g_pick_best (title_lower author_lower author_last : String)
    (items : List GItem) : Option GItem :=
  (items.foldl
    (fun (acc : Option GItem × ℤ) it =>
      let s := g_item_score_x1000 title_lower author_lower author_last it
      if acc.2 < s then (some it, s) else acc)
    (none, -1000)).1

/-- `(author or "").lower().strip()` of `fetch_google_book`. -/
def g_author_lower (author : Option String) : String :=
  py_strip (py_lower (author.getD ""))

/-- `author_lower.split()[-1] if author_lower else ""` of
`fetch_google_book`. -/
def g_author_last (author_lower : String) : String :=
  if author_lower ≠ "" then (py_split_ws author_lower).getLastD "" else ""

/-- `google_books_client.fetch_google_book` (selection and rejection
logic; the three search strategies are abstracted into the `items` input,
which is `[]` when every attempted search returned nothing). -/
def fetch_google_book (title author : Option String) (items : List GItem) :
    Option GItem :=
  if items = [] then none
  else
    let title_lower := py_strip (py_lower (title.getD ""))
    let author_lower := g_author_lower author
    let author_last := g_author_last author_lower
    match g_pick_best title_lower author_lower author_last items with
    | none => none
    | some best =>
      if author_lower ≠ "" then
        if !(author_matches author_lower author_last (joined_authors best.authors)).1 then
          none
        else some best
      else some best

/-! ## `backend/book_context.py` — adapter chain of `fetch_book_context` -/

/-- An Open Library search result, restricted to the fields
`fetch_book_context` reads. -/
structure OLBook where
  ratings_average : Option ℤ
  ratings_count : Option ℤ
deriving DecidableEq

/-- A normalized Hardcover book as `fetch_book_context` sees it (adapter
outcome; an exception inside the step is caught and leaves `none`). -/
structure HCBook where
  title : String
  description : Option String
  reviews : List String
deriving DecidableEq

/-- Which adapters `fetch_book_context` invokes, and the values visible to
the later steps. -/
structure ChainTrace where
  google_called : Bool
  ol_called : Bool
  hc : Option HCBook
  google : Option GItem
  ol : Option OLBook
deriving DecidableEq

/-- Steps 1–3 of `fetch_book_context`: Hardcover always; Google Books only
under `not hc or (not hc.get("description") and not hc.get("reviews"))`;
Open Library always (its step is unconditional). -/
def fetch_book_context_chain (hc_outcome : Option HCBook)
    (google_outcome : Option GItem) (ol_outcome : Option OLBook) : ChainTrace :=
  let hc := hc_outcome
  let google_called :=
    match hc with
    | none => true
    | some b => !truthy_opt_str b.description && b.reviews.isEmpty
  let google := if google_called then google_outcome else none
  let ol_called := true
  let ol := ol_outcome
  ⟨google_called, ol_called, hc, google, ol⟩

/-! ## Statement helpers and concrete inputs used by witnesses -/

/-- All five dimension values that `_calculate_overall` would read (with
its defaults) lie in the rubric's 0–100 range. -/
def scores_in_range (s : Scores) : Prop :=
  (0 ≤ s.readability.getD 70 ∧ s.readability.getD 70 ≤ 100)
    ∧ (0 ≤ s.grammar.getD 70 ∧ s.grammar.getD 70 ≤ 100)
    ∧ (0 ≤ s.polish.getD 70 ∧ s.polish.getD 70 ≤ 100)
    ∧ (0 ≤ s.prose.getD 70 ∧ s.prose.getD 70 ≤ 100)
    ∧ (0 ≤ s.pacing.getD 70 ∧ s.pacing.getD 70 ≤ 100)

instance (s : Scores) : Decidable (scores_in_range s) := by
  unfold scores_in_range; infer_instance

/-- A concrete scorer result used by the upsert witnesses. -/
def sample_scores : ScoreResult :=
  { book_title := "The Deal"
    author := "Elle Kennedy"
    scores := ⟨some 80, some 70, some 70, some 75, some 72⟩
    overall_score := some 75
    confidence := 55
    flags := []
    review_count := 7
    scoring_status := "ok" }

/-- A concrete context result used by the upsert witnesses. -/
def sample_ctx : Ctx :=
  { context_source := some "description+reviews"
    ratings_count_estimate := some 120
    review_count := some 7
    meta := some ⟨some "A fine hockey romance.", some "http://img/1.jpg", none, none, some "9781111111111"⟩ }

/-- A concrete pre-existing `books` row with curated descriptive fields,
used by the preservation witness. -/
def sample_row : Row :=
  { title := "The Deal"
    author := "Elle Kennedy"
    isbn := some "1111111111"
    isbn13 := some "9781111111111"
    synopsis := some "Hand-curated synopsis."
    coverUrl := some "http://img/curated.jpg"
    search_normalized := "the deal elle kennedy"
    qualityScore := some 80
    technicalQuality := 70
    proseStyle := 70
    pacing := 70
    readability := 80
    craftExecution := 70
    confidenceLevel := "high"
    voteCount := 100
    spiceLevel := 3
    officialContentWarnings := none
    scoring_status := "ok"
    context_source := "description+reviews"
    scoredDate := some "2026-01-01T00:00:00+00:00"
    first_scored_at := some "2026-01-01T00:00:00+00:00"
    last_scored_at := some "2026-01-01T00:00:00+00:00"
    times_requested := 4 }

/-! ## Supporting lemmas -/

theorem pyRoundCent_eq_pyRound (k : ℤ) : pyRoundCent k = pyRound ((k : ℚ) / 100) := by
  have h100 : (0:ℚ) < 100 := by norm_num
  set d := k / 100 with hd
  set m := k % 100 with hm
  have hk : 100 * d + m = k := Int.ediv_add_emod k 100
  have hm0 : 0 ≤ m := Int.emod_nonneg k (by norm_num)
  have hm1 : m < 100 := Int.emod_lt_of_pos k (by norm_num)
  have hkQ : (k:ℚ) = 100 * (d:ℚ) + (m:ℚ) := by exact_mod_cast hk.symm
  have hm0Q : (0:ℚ) ≤ (m:ℚ) := by exact_mod_cast hm0
  have hm1Q : (m:ℚ) < 100 := by exact_mod_cast hm1
  have hfloor : ⌊(k:ℚ)/100⌋ = d := by
    rw [Int.floor_eq_iff]
    constructor
    · rw [le_div_iff₀ h100, hkQ]; linarith
    · rw [div_lt_iff₀ h100, hkQ]; linarith
  have hfrac : (k:ℚ)/100 - (d:ℚ) = (m:ℚ) / 100 := by
    rw [hkQ]; field_simp
  have c1 : ((k:ℚ)/100 - (d:ℚ) < 1/2) = (m < 50) := by
    rw [hfrac, div_lt_iff₀ h100]
    norm_num
    exact ⟨fun h => by exact_mod_cast h, fun h => by exact_mod_cast h⟩
  have c2 : (1/2 < (k:ℚ)/100 - (d:ℚ)) = (50 < m) := by
    rw [hfrac, lt_div_iff₀ h100]
    norm_num
    exact ⟨fun h => by exact_mod_cast h, fun h => by exact_mod_cast h⟩
  simp only [pyRound, pyRoundCent, hfloor, ← hd, ← hm, Int.cast_natCast]
  simp only [c1, c2]

theorem calculate_overall_bounds (s : Scores) (h : scores_in_range s) :
    0 ≤ calculate_overall s ∧ calculate_overall s ≤ 100 := by
  obtain ⟨⟨hr0, hr1⟩, ⟨hg0, hg1⟩, ⟨hp0, hp1⟩, ⟨hpr0, hpr1⟩, ⟨hpa0, hpa1⟩⟩ := h
  unfold calculate_overall pyRoundCent
  dsimp only
  split_ifs <;> omega

theorem score_attempts_status (t : String → ℕ → AttemptOutcome) (p ti au : String)
    (rc : ℤ) (cl : ℕ) : ∀ (fuel attempt : ℕ) (le : Option String),
    (score_attempts t p ti au rc cl fuel attempt le).1.scoring_status = "ok"
      ∨ (score_attempts t p ti au rc cl fuel attempt le).1.scoring_status = "temporarily_unavailable"
      ∨ (score_attempts t p ti au rc cl fuel attempt le).1.scoring_status = "error" := by
  intro fuel
  induction fuel with
  | zero =>
    intro attempt le
    unfold score_attempts failure_result
    dsimp only
    split_ifs <;> simp
  | succ n ih =>
    intro attempt le
    unfold score_attempts
    cases t p attempt with
    | fail e => exact ih _ _
    | reply r =>
      dsimp only
      by_cases hk : required_keys_present (parse_llm_response r).scores
      · simp [hk, ok_result]
      · simp only [hk, if_false, Bool.false_eq_true]
        exact ih _ _

theorem score_attempts_ok_shape (t : String → ℕ → AttemptOutcome) (p ti au : String)
    (rc : ℤ) (cl : ℕ) : ∀ (fuel attempt : ℕ) (le : Option String),
    (score_attempts t p ti au rc cl fuel attempt le).1.scoring_status = "ok" →
    ∃ parsed, required_keys_present parsed.scores = true ∧
      (score_attempts t p ti au rc cl fuel attempt le).1 = ok_result parsed rc cl := by
  intro fuel
  induction fuel with
  | zero =>
    intro attempt le h
    exfalso
    revert h
    unfold score_attempts failure_result
    dsimp only
    split_ifs <;> simp
  | succ n ih =>
    intro attempt le
    unfold score_attempts
    cases t p attempt with
    | fail e => exact ih _ _
    | reply r =>
      dsimp only
      by_cases hk : required_keys_present (parse_llm_response r).scores
      · intro _
        exact ⟨parse_llm_response r, hk, by simp [hk]⟩
      · simp only [hk, if_false, Bool.false_eq_true]
        exact ih _ _

theorem score_book_ok_shape (hk : Bool) (ti au se ge sg ctx : String) (rc : ℤ)
    (t : String → ℕ → AttemptOutcome)
    (h : (score_book hk ti au se ge sg ctx rc t).1.scoring_status = "ok") :
    ∃ parsed, required_keys_present parsed.scores = true ∧
      (score_book hk ti au se ge sg ctx rc t).1 = ok_result parsed rc ctx.data.length := by
  revert h
  unfold score_book
  split_ifs <;>
    first
      | exact score_attempts_ok_shape t _ ti au rc ctx.data.length GEMINI_RETRY_MAX 1 none
      | (intro h; exact absurd h (by simp))

theorem score_attempts_reply_ok (t : String → ℕ → AttemptOutcome) (p ti au : String)
    (rc : ℤ) (cl fuel attempt : ℕ) (le : Option String) (r : RawResponse)
    (hr : t p attempt = .reply r)
    (hkeys : required_keys_present (parse_llm_response r).scores = true) :
    score_attempts t p ti au rc cl (fuel + 1) attempt le =
      (ok_result (parse_llm_response r) rc cl, attempt) := by
  unfold score_attempts
  rw [hr]
  simp [hkeys]

/-! ## Claims -/

set_option maxRecDepth 4000 in
/-- C2 counterexample: at integer dimension scores (readability 70,
grammar 23, polish 29, prose 31, pacing 47), CPython's binary64 evaluation
of the weighted sum lands one ulp below the exact tie 47.5, so
`_calculate_overall` returns 47 — while the rounding of the exact weighted
sum `0.40·70 + 0.15·(23+29+31+47)` is 48.  The claimed equality
`readability ≥ 70 ⇒ overall = round(0.40·r + 0.15·(g+p+pr+pa))` is false
of the program. -/
theorem C2_counterexample :
    calculate_overall_float ⟨some 70, some 23, some 29, some 31, some 47⟩ = 47
    ∧ pyRound ((40/100 : ℚ) * ((70:ℤ):ℚ) + (15/100 : ℚ) *
        (((23:ℤ):ℚ) + ((29:ℤ):ℚ) + ((31:ℤ):ℚ) + ((47:ℤ):ℚ))) = 48
    ∧ (47 : ℤ) ≠ 48 := by
  refine ⟨by decide, ?_, by decide⟩
  have h : ((40 * 70 + 15 * (23 + 29 + 31 + 47) : ℤ) : ℚ) / 100
      = (40/100 : ℚ) * ((70:ℤ):ℚ) + (15/100 : ℚ) *
        (((23:ℤ):ℚ) + ((29:ℤ):ℚ) + ((31:ℤ):ℚ) + ((47:ℤ):ℚ)) := by
    push_cast
    ring
  rw [← h, ← pyRoundCent_eq_pyRound]
  decide

/-- C2 (amended): for integer-valued dimension scores, if
`readability < 70` the overall score is at most 75 whatever the other four
dimensions are; if `readability ≥ 70` the overall score is the Python
rounding of the IEEE-754 binary64 evaluation of
`0.40·readability + 0.15·(grammar+polish+prose+pacing)`, with no clamping
applied — which differs from the rounding of the exact weighted sum at
exact-tie inputs (47 against 48 at the counterexample input). -/
theorem C2_weighted_overall_float (r g p pr pa : ℤ) :
    (r < 70 → calculate_overall_float ⟨some r, some g, some p, some pr, some pa⟩ ≤ 75)
    ∧ (70 ≤ r → calculate_overall_float ⟨some r, some g, some p, some pr, some pa⟩
        = py_round_float (float_weighted_sum r g p pr pa)) := by
  constructor
  · intro hr
    unfold calculate_overall_float
    simp only [Option.getD_some]
    split_ifs with h
    · norm_num
    · push_neg at h
      exact h hr
  · intro hr
    unfold calculate_overall_float
    simp only [Option.getD_some]
    rw [if_neg (fun hc => absurd hc.1 (not_lt.mpr hr))]

theorem C2_weighted_overall_float_witness :
    (calculate_overall_float ⟨some 60, some 100, some 100, some 100, some 100⟩ ≤ 75)
    ∧ (calculate_overall_float ⟨some 80, some 70, some 75, some 72, some 68⟩
        = py_round_float (float_weighted_sum 80 70 75 72 68)) :=
  ⟨(C2_weighted_overall_float 60 100 100 100 100).1 (by decide),
   (C2_weighted_overall_float 80 70 75 72 68).2 (by decide)⟩

/-- C4: whatever the inputs and whatever the LLM transport does on each
attempt (raise or return any text), `score_book` returns a structured
result whose `scoring_status` is one of `"ok"`,
`"temporarily_unavailable"`, `"error"`; it never raises past its
boundary. -/
theorem C4_always_structured (hk : Bool) (ti au se ge sg ctx : String) (rc : ℤ)
    (t : String → ℕ → AttemptOutcome) :
    (score_book hk ti au se ge sg ctx rc t).1.scoring_status = "ok"
      ∨ (score_book hk ti au se ge sg ctx rc t).1.scoring_status = "temporarily_unavailable"
      ∨ (score_book hk ti au se ge sg ctx rc t).1.scoring_status = "error" := by
  unfold score_book
  split_ifs <;>
    first
      | (right; right; rfl)
      | exact score_attempts_status t _ ti au rc ctx.data.length GEMINI_RETRY_MAX 1 none

/-- C3 counterexample: with the attempt limit configured at 3, a transport
whose response fails all three parse strategies makes `score_book` return
the synthetic default (all dimensions 50, confidence 0, flag
`"json_parse_failure"`, status `"ok"`) already on attempt 1 — it does not
retry up to the attempt limit before degrading. -/
theorem C3_counterexample :
    (score_book true "Book" "Auth" "" "" "" "some context for scoring" 0
        (fun _ _ => .reply ⟨none, none, none⟩)).2 = 1
    ∧ GEMINI_RETRY_MAX = 3
    ∧ (score_book true "Book" "Auth" "" "" "" "some context for scoring" 0
        (fun _ _ => .reply ⟨none, none, none⟩)).1.scoring_status = "ok"
    ∧ (score_book true "Book" "Auth" "" "" "" "some context for scoring" 0
        (fun _ _ => .reply ⟨none, none, none⟩)).1.scores
        = ⟨some 50, some 50, some 50, some 50, some 50⟩
    ∧ (score_book true "Book" "Auth" "" "" "" "some context for scoring" 0
        (fun _ _ => .reply ⟨none, none, none⟩)).1.confidence = 0
    ∧ "json_parse_failure" ∈ (score_book true "Book" "Auth" "" "" "" "some context for scoring" 0
        (fun _ _ => .reply ⟨none, none, none⟩)).1.flags := by
  decide

/-- C3 (amended): when an attempt's LLM response fails all three parse
strategies, `score_book` does not retry at all: the parse cascade
immediately substitutes the synthetic low-confidence default (all five
dimensions 50, confidence 0, flag `"json_parse_failure"`), the attempt
"succeeds", and the call returns at that very attempt with status `"ok"`;
it never crashes in this case. -/
theorem C3_parse_failure_degrades_immediately (ti au se ge sg ctx : String)
    (rc : ℤ) (t : String → ℕ → AttemptOutcome)
    (hctx : ¬(py_strip ctx).data.length = 0)
    (ht : ∀ p, t p 1 = .reply ⟨none, none, none⟩) :
    score_book true ti au se ge sg ctx rc t =
      (ok_result fallback_default rc ctx.data.length, 1) := by
  unfold score_book
  rw [if_neg (by simp), if_neg hctx]
  rw [show GEMINI_RETRY_MAX = 2 + 1 from rfl]
  rw [score_attempts_reply_ok _ _ _ _ _ _ _ _ _ _ (ht _) (by decide)]
  rfl

theorem C3_parse_failure_witness :
    score_book true "Book" "Auth" "" "" "" "another context" 0
        (fun _ _ => .reply ⟨none, none, none⟩) =
      (ok_result fallback_default 0 ("another context").data.length, 1) :=
  C3_parse_failure_degrades_immediately "Book" "Auth" "" "" "" "another context" 0
    (fun _ _ => .reply ⟨none, none, none⟩) (by decide) (fun _ => rfl)

/-- C9 counterexample: an LLM response carrying out-of-range dimension
values (all five 150) yields a result with status `"ok"` whose
`overall_score` is 150, outside `[0, 100]` — no clamping is applied. -/
theorem C9_counterexample :
    (score_book true "Book" "Auth" "" "" "" "some context for scoring" 0
        (fun _ _ => .reply ⟨some ⟨"Book", "Auth",
          ⟨some 150, some 150, some 150, some 150, some 150⟩,
          some 90, 80, [], 0⟩, none, none⟩)).1.scoring_status = "ok"
    ∧ (score_book true "Book" "Auth" "" "" "" "some context for scoring" 0
        (fun _ _ => .reply ⟨some ⟨"Book", "Auth",
          ⟨some 150, some 150, some 150, some 150, some 150⟩,
          some 90, 80, [], 0⟩, none, none⟩)).1.overall_score = some 150
    ∧ ¬((150:ℤ) ≤ 100) := by
  decide

/-- C9 (amended): for every result `score_book` returns with status
`"ok"`, if the dimension values the winning parsed response carried (the
ones returned in the result) all lie in the rubric's range `[0, 100]`,
then the returned `overall_score` lies in `[0, 100]`.  (Out-of-range
model values propagate unclamped, per the counterexample.) -/
theorem C9_overall_in_range (hk : Bool) (ti au se ge sg ctx : String) (rc : ℤ)
    (t : String → ℕ → AttemptOutcome)
    (hok : (score_book hk ti au se ge sg ctx rc t).1.scoring_status = "ok")
    (hin : scores_in_range (score_book hk ti au se ge sg ctx rc t).1.scores) :
    ∃ o, (score_book hk ti au se ge sg ctx rc t).1.overall_score = some o
      ∧ 0 ≤ o ∧ o ≤ 100 := by
  obtain ⟨parsed, hkeys, heq⟩ := score_book_ok_shape hk ti au se ge sg ctx rc t hok
  refine ⟨calculate_overall parsed.scores, ?_, ?_⟩
  · rw [heq]; rfl
  · rw [heq] at hin
    exact calculate_overall_bounds parsed.scores hin

theorem C9_overall_in_range_witness :
    ∃ o, (score_book true "Book" "Auth" "" "" "" "some context for scoring" 0
        (fun _ _ => .reply ⟨some ⟨"Book", "Auth",
          ⟨some 80, some 70, some 75, some 72, some 68⟩,
          some 99, 80, [], 0⟩, none, none⟩)).1.overall_score = some o
      ∧ 0 ≤ o ∧ o ≤ 100 :=
  C9_overall_in_range true "Book" "Auth" "" "" "" "some context for scoring" 0
    (fun _ _ => .reply ⟨some ⟨"Book", "Auth",
      ⟨some 80, some 70, some 75, some 72, some 68⟩,
      some 99, 80, [], 0⟩, none, none⟩) (by decide) (by decide)

/-- C10 (implicit): in every `"ok"` result of `score_book`, the returned
`overall_score` is the value `_calculate_overall` recomputes from the
returned dimension scores — the model-reported `overall_score` is
discarded — and the returned `review_count` is the caller-supplied value,
not the model-reported one. -/
theorem C10_recomputed_overall (hk : Bool) (ti au se ge sg ctx : String) (rc : ℤ)
    (t : String → ℕ → AttemptOutcome)
    (hok : (score_book hk ti au se ge sg ctx rc t).1.scoring_status = "ok") :
    (score_book hk ti au se ge sg ctx rc t).1.overall_score
        = some (calculate_overall (score_book hk ti au se ge sg ctx rc t).1.scores)
      ∧ (score_book hk ti au se ge sg ctx rc t).1.review_count = rc := by
  obtain ⟨parsed, hkeys, heq⟩ := score_book_ok_shape hk ti au se ge sg ctx rc t hok
  rw [heq]
  exact ⟨rfl, rfl⟩

theorem C10_recomputed_overall_witness :
    (score_book true "Book" "Auth" "" "" "" "some context for scoring" 7
        (fun _ _ => .reply ⟨some ⟨"Book", "Auth",
          ⟨some 80, some 70, some 75, some 72, some 68⟩,
          some 11, 80, [], 3⟩, none, none⟩)).1.overall_score
        = some (calculate_overall (score_book true "Book" "Auth" "" "" ""
            "some context for scoring" 7
            (fun _ _ => .reply ⟨some ⟨"Book", "Auth",
              ⟨some 80, some 70, some 75, some 72, some 68⟩,
              some 11, 80, [], 3⟩, none, none⟩)).1.scores)
      ∧ (score_book true "Book" "Auth" "" "" "" "some context for scoring" 7
          (fun _ _ => .reply ⟨some ⟨"Book", "Auth",
            ⟨some 80, some 70, some 75, some 72, some 68⟩,
            some 11, 80, [], 3⟩, none, none⟩)).1.review_count = 7 :=
  C10_recomputed_overall true "Book" "Auth" "" "" "" "some context for scoring" 7
    (fun _ _ => .reply ⟨some ⟨"Book", "Auth",
      ⟨some 80, some 70, some 75, some 72, some 68⟩,
      some 11, 80, [], 3⟩, none, none⟩) (by decide)

theorem conflict_update_key (t a : String) (r e : Row) :
    books_key_match t a (conflict_update r e) = books_key_match t a r := rfl

theorem excluded_row_key (t a : String) (isbn : Option String) (scores : ScoreResult)
    (ctx : Ctx) (cw : Option String) (spice : ℤ) (inc : Bool) (now : String) :
    books_key_match t a (excluded_row t a isbn scores ctx cw spice inc now) = true := by
  simp [books_key_match, excluded_row]

theorem books_insert_append_of_no_match (t a : String) (e : Row) :
    ∀ store : List Row, (∀ r ∈ store, books_key_match t a r = false) →
    books_insert_or_update t a e store = store ++ [e] := by
  intro store
  induction store with
  | nil => intro _; rfl
  | cons x rest ih =>
    intro h
    unfold books_insert_or_update
    rw [h x (List.mem_cons_self x rest)]
    simp only [Bool.false_eq_true, if_false, List.cons_append, List.cons.injEq, true_and]
    exact ih fun r hr => h r (List.mem_cons_of_mem x hr)

theorem books_insert_update_last (t a : String) (e x : Row)
    (hx : books_key_match t a x = true) :
    ∀ store : List Row, (∀ r ∈ store, books_key_match t a r = false) →
    books_insert_or_update t a e (store ++ [x]) = store ++ [conflict_update x e] := by
  intro store
  induction store with
  | nil => intro _; simp [books_insert_or_update, hx]
  | cons y rest ih =>
    intro h
    simp only [List.cons_append]
    unfold books_insert_or_update
    rw [h y (List.mem_cons_self y rest)]
    simp only [Bool.false_eq_true, if_false, List.cons.injEq, true_and]
    exact ih fun r hr => h r (List.mem_cons_of_mem y hr)

theorem find?_append_of_no_match {α : Type} (p : α → Bool) :
    ∀ store : List α, (∀ r ∈ store, p r = false) →
    ∀ l2 : List α, (store ++ l2).find? p = l2.find? p := by
  intro store
  induction store with
  | nil => intro _ l2; rfl
  | cons x rest ih =>
    intro h l2
    simp only [List.cons_append]
    rw [List.find?_cons_of_neg]
    · exact ih (fun r hr => h r (List.mem_cons_of_mem x hr)) l2
    · simp [h x (List.mem_cons_self x rest)]

theorem filter_append_of_no_match {α : Type} (p : α → Bool) (store : List α)
    (h : ∀ r ∈ store, p r = false) (l2 : List α) :
    (store ++ l2).filter p = l2.filter p := by
  rw [List.filter_append]
  have : store.filter p = [] := by
    rw [List.filter_eq_nil_iff]
    intro r hr
    simp [h r hr]
  rw [this, List.nil_append]

theorem books_insert_find?_updates (t a : String) (e : Row) :
    ∀ (store : List Row) (r : Row),
    store.find? (books_key_match t a) = some r →
    (books_insert_or_update t a e store).find? (books_key_match t a)
      = some (conflict_update r e) := by
  intro store
  induction store with
  | nil => intro r h; simp [List.find?] at h
  | cons x rest ih =>
    intro r h
    by_cases hx : books_key_match t a x = true
    · rw [List.find?_cons_of_pos _ hx] at h
      injection h with h
      subst h
      unfold books_insert_or_update
      rw [if_pos hx]
      rw [List.find?_cons_of_pos]
      rw [conflict_update_key]
      exact hx
    · rw [List.find?_cons_of_neg _ (by simp [hx])] at h
      unfold books_insert_or_update
      rw [if_neg hx]
      rw [List.find?_cons_of_neg _ (by simp [hx])]
      exact ih r h

/-- C5: starting from a store with no row for the `(title, author)` pair,
two `upsert_scored_book` calls with the same inputs leave exactly one
stored record for that pair; its `first_scored_at` is the timestamp the
first call wrote, and its `times_requested` is the sum of the two calls'
increment flags. -/
theorem C5_upsert_idempotent (store : List Row) (title author : String)
    (isbn : Option String) (scores : ScoreResult) (ctx : Ctx)
    (cw : Option String) (spice : ℤ) (f1 f2 : Bool) (now1 now2 : String)
    (h : ∀ r ∈ store, books_key_match title author r = false) :
    ((upsert_scored_book
        (upsert_scored_book store title author isbn scores ctx cw spice f1 now1)
        title author isbn scores ctx cw spice f2 now2).filter
          (books_key_match title author)).length = 1
    ∧ ∃ r, (upsert_scored_book
          (upsert_scored_book store title author isbn scores ctx cw spice f1 now1)
          title author isbn scores ctx cw spice f2 now2).find?
            (books_key_match title author) = some r
        ∧ r.first_scored_at = some now1
        ∧ r.times_requested = (if f1 then 1 else 0) + (if f2 then 1 else 0) := by
  have he1 := excluded_row_key title author isbn scores ctx cw spice f1 now1
  have s1 : upsert_scored_book store title author isbn scores ctx cw spice f1 now1
      = store ++ [excluded_row title author isbn scores ctx cw spice f1 now1] :=
    books_insert_append_of_no_match title author _ store h
  have s2 : upsert_scored_book
      (store ++ [excluded_row title author isbn scores ctx cw spice f1 now1])
      title author isbn scores ctx cw spice f2 now2
      = store ++ [conflict_update
          (excluded_row title author isbn scores ctx cw spice f1 now1)
          (excluded_row title author isbn scores ctx cw spice f2 now2)] :=
    books_insert_update_last title author _ _ he1 store h
  rw [s1, s2]
  have hcu : books_key_match title author
      (conflict_update (excluded_row title author isbn scores ctx cw spice f1 now1)
        (excluded_row title author isbn scores ctx cw spice f2 now2)) = true := by
    rw [conflict_update_key]; exact he1
  constructor
  · rw [filter_append_of_no_match _ store h]
    simp [List.filter, hcu]
  · refine ⟨conflict_update
        (excluded_row title author isbn scores ctx cw spice f1 now1)
        (excluded_row title author isbn scores ctx cw spice f2 now2), ?_, rfl, rfl⟩
    rw [find?_append_of_no_match _ store h]
    exact List.find?_cons_of_pos _ hcu

theorem C5_upsert_idempotent_witness :
    ((upsert_scored_book
        (upsert_scored_book [] "The Deal" "Elle Kennedy" (some "1111111111")
          sample_scores sample_ctx none 3 true "2026-02-02T00:00:00+00:00")
        "The Deal" "Elle Kennedy" (some "1111111111")
        sample_scores sample_ctx none 3 false "2026-03-03T00:00:00+00:00").filter
          (books_key_match "The Deal" "Elle Kennedy")).length = 1
    ∧ ∃ r, (upsert_scored_book
          (upsert_scored_book [] "The Deal" "Elle Kennedy" (some "1111111111")
            sample_scores sample_ctx none 3 true "2026-02-02T00:00:00+00:00")
          "The Deal" "Elle Kennedy" (some "1111111111")
          sample_scores sample_ctx none 3 false "2026-03-03T00:00:00+00:00").find?
            (books_key_match "The Deal" "Elle Kennedy") = some r
        ∧ r.first_scored_at = some "2026-02-02T00:00:00+00:00"
        ∧ r.times_requested = (if true then 1 else 0) + (if false then 1 else 0) :=
  C5_upsert_idempotent [] "The Deal" "Elle Kennedy" (some "1111111111")
    sample_scores sample_ctx none 3 true false
    "2026-02-02T00:00:00+00:00" "2026-03-03T00:00:00+00:00" (by simp)

/-- C6: when a row for `(title, author)` already exists, the conflict path
of `upsert_scored_book` never overwrites a non-empty synopsis (it stays
exactly as stored, whatever different synopsis the call carries), and the
descriptive fields synopsis / coverUrl / isbn are filled from the new
values only when currently empty. -/
theorem C6_descriptive_preserved (store : List Row) (title author : String)
    (isbn : Option String) (scores : ScoreResult) (ctx : Ctx) (cw : Option String)
    (spice : ℤ) (inc : Bool) (now : String) (r : Row)
    (hfind : store.find? (books_key_match title author) = some r) :
    ∃ r2, (upsert_scored_book store title author isbn scores ctx cw spice inc now).find?
        (books_key_match title author) = some r2
      ∧ (∀ s, r.synopsis = some s → s ≠ "" → r2.synopsis = some s)
      ∧ (r.synopsis = none ∨ r.synopsis = some "" →
          r2.synopsis = (excluded_row title author isbn scores ctx cw spice inc now).synopsis)
      ∧ (r.coverUrl.isSome = true → r2.coverUrl = r.coverUrl)
      ∧ (r.coverUrl = none →
          r2.coverUrl = (excluded_row title author isbn scores ctx cw spice inc now).coverUrl)
      ∧ (r.isbn.isSome = true → r2.isbn = r.isbn)
      ∧ (r.isbn = none → r2.isbn = isbn) := by
  refine ⟨conflict_update r (excluded_row title author isbn scores ctx cw spice inc now),
    books_insert_find?_updates title author _ store r hfind, ?_, ?_, ?_, ?_, ?_, ?_⟩
  · intro s hs hne
    show coalesce (nullif_empty r.synopsis) _ = some s
    rw [hs]
    simp [nullif_empty, coalesce, hne]
  · intro hcase
    show coalesce (nullif_empty r.synopsis) _ = _
    rcases hcase with hn | he
    · rw [hn]; rfl
    · rw [he]; simp [nullif_empty, coalesce]
  · intro hsome
    obtain ⟨v, hv⟩ := Option.isSome_iff_exists.mp hsome
    show coalesce r.coverUrl _ = r.coverUrl
    rw [hv]; rfl
  · intro hn
    show coalesce r.coverUrl _ = _
    rw [hn]; rfl
  · intro hsome
    obtain ⟨v, hv⟩ := Option.isSome_iff_exists.mp hsome
    show coalesce r.isbn _ = r.isbn
    rw [hv]; rfl
  · intro hn
    show coalesce r.isbn _ = _
    rw [hn]; rfl

theorem C6_descriptive_preserved_witness :
    ∃ r2, (upsert_scored_book [sample_row] "The Deal" "Elle Kennedy" none
        sample_scores sample_ctx none 0 false "2026-04-04T00:00:00+00:00").find?
        (books_key_match "The Deal" "Elle Kennedy") = some r2
      ∧ (∀ s, sample_row.synopsis = some s → s ≠ "" → r2.synopsis = some s)
      ∧ (sample_row.synopsis = none ∨ sample_row.synopsis = some "" →
          r2.synopsis = (excluded_row "The Deal" "Elle Kennedy" none
            sample_scores sample_ctx none 0 false "2026-04-04T00:00:00+00:00").synopsis)
      ∧ (sample_row.coverUrl.isSome = true → r2.coverUrl = sample_row.coverUrl)
      ∧ (sample_row.coverUrl = none →
          r2.coverUrl = (excluded_row "The Deal" "Elle Kennedy" none
            sample_scores sample_ctx none 0 false "2026-04-04T00:00:00+00:00").coverUrl)
      ∧ (sample_row.isbn.isSome = true → r2.isbn = sample_row.isbn)
      ∧ (sample_row.isbn = none → r2.isbn = none) :=
  C6_descriptive_preserved [sample_row] "The Deal" "Elle Kennedy" none
    sample_scores sample_ctx none 0 false "2026-04-04T00:00:00+00:00" sample_row
    (by decide)

theorem usage_ensure_row_isSome (s : List UsageRow) (k m : String) :
    ∃ row, usage_find? (usage_ensure_row s k m) k m = some row := by
  unfold usage_ensure_row
  by_cases h : (usage_find? s k m).isSome
  · rw [if_pos h]
    exact Option.isSome_iff_exists.mp h
  · rw [if_neg h]
    have hn : usage_find? s k m = none := Option.not_isSome_iff_eq_none.mp h
    have hall : ∀ r ∈ s, usage_key_match k m r = false := by
      intro r hr
      have := List.find?_eq_none.mp hn r hr
      simpa using this
    refine ⟨⟨k, m, 0⟩, ?_⟩
    unfold usage_find? at *
    rw [find?_append_of_no_match _ s hall]
    simp [List.find?, usage_key_match]

theorem usage_current_eq_count (s : List UsageRow) (k m : String) :
    usage_current s k m = usage_count s k m := by
  unfold usage_current usage_count usage_ensure_row
  by_cases h : (usage_find? s k m).isSome
  · rw [if_pos h]
  · rw [if_neg h]
    have hn : usage_find? s k m = none := Option.not_isSome_iff_eq_none.mp h
    have hall : ∀ r ∈ s, usage_key_match k m r = false := by
      intro r hr
      have := List.find?_eq_none.mp hn r hr
      simpa using this
    unfold usage_find? at *
    rw [find?_append_of_no_match _ s hall, hn]
    simp [List.find?, usage_key_match]

theorem usage_increment_find? (k m : String) :
    ∀ s : List UsageRow, usage_find? (usage_increment k m s) k m
      = (usage_find? s k m).map fun r => ⟨r.user_key, r.year_month, r.count + 1⟩ := by
  intro s
  induction s with
  | nil => rfl
  | cons x rest ih =>
    by_cases hx : usage_key_match k m x = true
    · unfold usage_increment usage_find?
      simp only [List.map_cons]
      rw [if_pos hx]
      rw [List.find?_cons_of_pos _ (by simpa [usage_key_match] using hx),
        List.find?_cons_of_pos _ hx]
      rfl
    · unfold usage_increment usage_find?
      simp only [List.map_cons]
      rw [if_neg hx]
      rw [List.find?_cons_of_neg _ (by simp [hx]), List.find?_cons_of_neg _ (by simp [hx])]
      exact ih

theorem usage_count_after_allow (s : List UsageRow) (k m : String) :
    usage_count (usage_increment k m (usage_ensure_row s k m)) k m
      = usage_current s k m + 1 := by
  obtain ⟨row, hrow⟩ := usage_ensure_row_isSome s k m
  unfold usage_count
  rw [usage_increment_find? k m (usage_ensure_row s k m), hrow]
  unfold usage_current usage_count
  rw [hrow]
  rfl

theorem check_and_increment_deny (cap : ℕ) (s : List UsageRow) (k m : String)
    (hge : cap ≤ usage_current s k m) :
    check_and_increment_usage cap s k m
      = ((false, usage_current s k m), usage_ensure_row s k m) := by
  unfold check_and_increment_usage
  rw [if_pos hge]

theorem check_and_increment_allow (cap : ℕ) (s : List UsageRow) (k m : String)
    (hlt : usage_current s k m < cap) :
    check_and_increment_usage cap s k m
      = ((true, usage_current s k m + 1),
          usage_increment k m (usage_ensure_row s k m)) := by
  unfold check_and_increment_usage
  rw [if_neg (not_le.mpr hlt)]

theorem usage_count_ensure_unchanged (s : List UsageRow) (k m : String) :
    usage_count (usage_ensure_row s k m) k m = usage_count s k m := by
  have := usage_current_eq_count s k m
  unfold usage_current at this
  exact this

theorem usage_calls_count (cap : ℕ) (k m : String) :
    ∀ (n : ℕ) (s : List UsageRow) (c : ℕ),
    usage_count s k m = c → c + n ≤ cap →
    usage_count (usage_calls cap k m n s) k m = c + n := by
  intro n
  induction n with
  | zero => intro s c h _; simpa using h
  | succ n ih =>
    intro s c h hle
    have hcur : usage_current s k m = c := by rw [usage_current_eq_count]; exact h
    have hlt : usage_current s k m < cap := by omega
    unfold usage_calls
    rw [check_and_increment_allow cap s k m hlt]
    have hstep : usage_count (usage_increment k m (usage_ensure_row s k m)) k m = c + 1 := by
      rw [usage_count_after_allow, hcur]
    have := ih (usage_increment k m (usage_ensure_row s k m)) (c + 1) hstep (by omega)
    rw [this]
    omega

theorem usage_find?_ensure_other (s : List UsageRow) (k m k2 m2 : String)
    (hne : ¬(k = k2 ∧ m = m2)) :
    usage_find? (usage_ensure_row s k m) k2 m2 = usage_find? s k2 m2 := by
  unfold usage_ensure_row
  by_cases h : (usage_find? s k m).isSome
  · rw [if_pos h]
  · rw [if_neg h]
    unfold usage_find?
    rw [List.find?_append]
    have : List.find? (usage_key_match k2 m2) [⟨k, m, 0⟩] = none := by
      simp only [List.find?]
      have : usage_key_match k2 m2 ⟨k, m, 0⟩ = false := by
        simp only [usage_key_match]
        by_contra hc
        simp only [Bool.not_eq_false, Bool.and_eq_true, beq_iff_eq] at hc
        exact hne ⟨hc.1, hc.2⟩
      rw [this]
    rw [this]
    simp

theorem usage_find?_increment_other (k m k2 m2 : String)
    (hne : ¬(k = k2 ∧ m = m2)) :
    ∀ s : List UsageRow, usage_find? (usage_increment k m s) k2 m2
      = usage_find? s k2 m2 := by
  intro s
  induction s with
  | nil => rfl
  | cons x rest ih =>
    have hkey : ∀ y : UsageRow, usage_key_match k m y = true →
        usage_key_match k2 m2 y = false := by
      intro y hy
      simp only [usage_key_match, Bool.and_eq_true, beq_iff_eq] at hy
      simp only [usage_key_match]
      by_contra hc
      simp only [Bool.not_eq_false, Bool.and_eq_true, beq_iff_eq] at hc
      exact hne ⟨hy.1 ▸ hc.1, hy.2 ▸ hc.2⟩
    by_cases hx : usage_key_match k m x = true
    · unfold usage_increment usage_find?
      simp only [List.map_cons]
      rw [if_pos hx]
      have h2x : usage_key_match k2 m2 x = false := hkey x hx
      have h2x' : usage_key_match k2 m2 ⟨x.user_key, x.year_month, x.count + 1⟩ = false := by
        simpa [usage_key_match] using h2x
      rw [List.find?_cons_of_neg _ (by simp [h2x']), List.find?_cons_of_neg _ (by simp [h2x])]
      exact ih
    · unfold usage_increment usage_find?
      simp only [List.map_cons]
      rw [if_neg hx]
      by_cases h2x : usage_key_match k2 m2 x = true
      · rw [List.find?_cons_of_pos _ h2x, List.find?_cons_of_pos _ h2x]
      · rw [List.find?_cons_of_neg _ (by simp [h2x]), List.find?_cons_of_neg _ (by simp [h2x])]
        exact ih

theorem usage_find?_call_other (cap : ℕ) (s : List UsageRow) (k m k2 m2 : String)
    (hne : ¬(k = k2 ∧ m = m2)) :
    usage_find? (check_and_increment_usage cap s k m).2 k2 m2
      = usage_find? s k2 m2 := by
  unfold check_and_increment_usage
  dsimp only
  split_ifs
  · exact usage_find?_ensure_other s k m k2 m2 hne
  · rw [usage_find?_increment_other k m k2 m2 hne]
    exact usage_find?_ensure_other s k m k2 m2 hne

theorem usage_find?_calls_other (cap : ℕ) (k m k2 m2 : String)
    (hne : ¬(k = k2 ∧ m = m2)) :
    ∀ (n : ℕ) (s : List UsageRow),
    usage_find? (usage_calls cap k m n s) k2 m2 = usage_find? s k2 m2 := by
  intro n
  induction n with
  | zero => intro s; rfl
  | succ n ih =>
    intro s
    unfold usage_calls
    rw [ih]
    exact usage_find?_call_other cap s k m k2 m2 hne

/-- C7: the quota check-and-increment denies without incrementing when the
stored monthly count has reached the cap and otherwise increments and
allows; with the default cap 10, an identity with 10 prior allowed calls
this month (each of which was indeed allowed) is denied on the 11th call
with the stored count left at 10, while a call keyed to a different
(next) month is allowed. -/
theorem C7_quota_cap :
    (∀ (cap : ℕ) (s : List UsageRow) (k m : String),
      (cap ≤ usage_current s k m →
        (check_and_increment_usage cap s k m).1 = (false, usage_current s k m)
        ∧ usage_count (check_and_increment_usage cap s k m).2 k m
            = usage_count s k m)
      ∧ (usage_current s k m < cap →
        (check_and_increment_usage cap s k m).1 = (true, usage_current s k m + 1)
        ∧ usage_count (check_and_increment_usage cap s k m).2 k m
            = usage_count s k m + 1))
    ∧ (∀ (k m m2 : String) (s : List UsageRow),
        usage_find? s k m = none → m2 ≠ m → usage_find? s k m2 = none →
        (∀ i, i < 10 →
          (check_and_increment_usage 10 (usage_calls 10 k m i s) k m).1.1 = true)
        ∧ usage_count (usage_calls 10 k m 10 s) k m = 10
        ∧ (check_and_increment_usage 10 (usage_calls 10 k m 10 s) k m).1 = (false, 10)
        ∧ usage_count (check_and_increment_usage 10 (usage_calls 10 k m 10 s) k m).2 k m = 10
        ∧ (check_and_increment_usage 10
            (check_and_increment_usage 10 (usage_calls 10 k m 10 s) k m).2 k m2).1.1
          = true) := by
  have general : ∀ (cap : ℕ) (s : List UsageRow) (k m : String),
      (cap ≤ usage_current s k m →
        (check_and_increment_usage cap s k m).1 = (false, usage_current s k m)
        ∧ usage_count (check_and_increment_usage cap s k m).2 k m
            = usage_count s k m)
      ∧ (usage_current s k m < cap →
        (check_and_increment_usage cap s k m).1 = (true, usage_current s k m + 1)
        ∧ usage_count (check_and_increment_usage cap s k m).2 k m
            = usage_count s k m + 1) := by
    intro cap s k m
    constructor
    · intro hge
      rw [check_and_increment_deny cap s k m hge]
      exact ⟨rfl, usage_count_ensure_unchanged s k m⟩
    · intro hlt
      rw [check_and_increment_allow cap s k m hlt]
      refine ⟨rfl, ?_⟩
      rw [usage_count_after_allow, usage_current_eq_count]
  refine ⟨general, ?_⟩
  intro k m m2 s h0 hne h02
  have hc0 : usage_count s k m = 0 := by unfold usage_count; rw [h0]; rfl
  have hcount : ∀ i, i ≤ 10 → usage_count (usage_calls 10 k m i s) k m = i := by
    intro i hi
    have := usage_calls_count 10 k m i s 0 hc0 (by omega)
    simpa using this
  have hallowed : ∀ i, i < 10 →
      (check_and_increment_usage 10 (usage_calls 10 k m i s) k m).1.1 = true := by
    intro i hi
    have hcur : usage_current (usage_calls 10 k m i s) k m < 10 := by
      rw [usage_current_eq_count, hcount i (by omega)]; omega
    rw [check_and_increment_allow 10 _ k m hcur]
  have h10 : usage_count (usage_calls 10 k m 10 s) k m = 10 := hcount 10 (by omega)
  have hcur10 : usage_current (usage_calls 10 k m 10 s) k m = 10 := by
    rw [usage_current_eq_count, h10]
  have hdeny := (general 10 (usage_calls 10 k m 10 s) k m).1 (by omega)
  refine ⟨hallowed, h10, ?_, ?_, ?_⟩
  · rw [hdeny.1, hcur10]
  · rw [hdeny.2, h10]
  · have hne2 : ¬(k = k ∧ m = m2) := fun hc => hne (hc.2.symm)
    have hkeep : usage_find? (check_and_increment_usage 10 (usage_calls 10 k m 10 s) k m).2 k m2
        = usage_find? s k m2 := by
      rw [usage_find?_call_other 10 _ k m k m2 hne2]
      rw [usage_find?_calls_other 10 k m k m2 hne2]
    have hcur2 : usage_current
        (check_and_increment_usage 10 (usage_calls 10 k m 10 s) k m).2 k m2 < 10 := by
      rw [usage_current_eq_count]
      unfold usage_count
      rw [hkeep, h02]
      simp
    rw [check_and_increment_allow 10 _ k m2 hcur2]

theorem C7_quota_cap_witness :
    ((check_and_increment_usage 3 [⟨"u:42", "2026-10", 3⟩] "u:42" "2026-10").1
        = (false, usage_current [⟨"u:42", "2026-10", 3⟩] "u:42" "2026-10")
      ∧ usage_count (check_and_increment_usage 3 [⟨"u:42", "2026-10", 3⟩] "u:42" "2026-10").2
          "u:42" "2026-10" = usage_count [⟨"u:42", "2026-10", 3⟩] "u:42" "2026-10")
    ∧ ((∀ i, i < 10 →
        (check_and_increment_usage 10 (usage_calls 10 "u:42" "2026-10" i []) "u:42" "2026-10").1.1
          = true)
      ∧ usage_count (usage_calls 10 "u:42" "2026-10" 10 []) "u:42" "2026-10" = 10
      ∧ (check_and_increment_usage 10 (usage_calls 10 "u:42" "2026-10" 10 [])
          "u:42" "2026-10").1 = (false, 10)
      ∧ usage_count (check_and_increment_usage 10 (usage_calls 10 "u:42" "2026-10" 10 [])
          "u:42" "2026-10").2 "u:42" "2026-10" = 10
      ∧ (check_and_increment_usage 10
          (check_and_increment_usage 10 (usage_calls 10 "u:42" "2026-10" 10 [])
            "u:42" "2026-10").2 "u:42" "2026-11").1.1 = true) :=
  ⟨(C7_quota_cap.1 3 [⟨"u:42", "2026-10", 3⟩] "u:42" "2026-10").1 (by decide),
   C7_quota_cap.2 "u:42" "2026-10" "2026-11" [] (by decide) (by decide) (by decide)⟩

/-- C8 counterexample: even when the Primary (Hardcover) adapter yielded
both a description and reviews — so the Secondary is skipped — the
Tertiary (Open Library) adapter is still invoked: its step in
`fetch_book_context` is unconditional. -/
theorem C8_counterexample :
    (fetch_book_context_chain
        (some ⟨"The Deal", some "a description", ["loved the prose"]⟩)
        none (some ⟨some 4, some 1000⟩)).google_called = false
    ∧ (fetch_book_context_chain
        (some ⟨"The Deal", some "a description", ["loved the prose"]⟩)
        none (some ⟨some 4, some 1000⟩)).ol_called = true := by
  decide

/-- C8 (amended): `fetch_book_context` tries Hardcover first and invokes
Google Books exactly when Hardcover yielded neither a (truthy) description
nor any review (or yielded nothing at all); the Open Library step, by
contrast, is invoked unconditionally, as an additive ratings source, even
when the Primary adapter already yielded a description or reviews. -/
theorem C8_adapter_chain (hc : Option HCBook) (g : Option GItem) (ol : Option OLBook) :
    ((fetch_book_context_chain hc g ol).google_called = true ↔
      (hc = none ∨ ∃ b, hc = some b ∧ truthy_opt_str b.description = false ∧ b.reviews = []))
    ∧ (fetch_book_context_chain hc g ol).ol_called = true := by
  constructor
  · cases hc with
    | none => simp [fetch_book_context_chain]
    | some b =>
      simp [fetch_book_context_chain, Bool.and_eq_true, Bool.not_eq_true',
        List.isEmpty_iff]
  · rfl

/-- C1 counterexample: querying Hardcover with author "Jane Smith" against
a sole candidate whose only author is "Smithson" returns that candidate
instead of null, although the candidate shares zero author-token overlap
with the query author (the word-boundary last-name search itself reports
no match).  The Primary adapter has no rejection rule. -/
theorem C1_counterexample :
    fetch_hardcover_book true none (some "Paper Hearts") (some "Jane Smith")
        [⟨"Paper Hearts", ["Smithson"], some "desc", []⟩]
      = some ⟨"Paper Hearts", ["Smithson"], some "desc", []⟩
    ∧ re_word_search (hc_author_last "Jane Smith") (joined_authors ["Smithson"]) = false
    ∧ (author_matches (g_author_lower (some "Jane Smith"))
        (g_author_last (g_author_lower (some "Jane Smith")))
        (joined_authors ["Smithson"])).1 = false := by
  decide

/-- C1 (amended): the rejection rule holds only for the Secondary (Google
Books) adapter — whenever it returns a candidate although a non-blank
author was supplied, that candidate passed the author-overlap check, and
in particular a winner with zero overlap is discarded to null.  The
Primary (Hardcover) adapter never discards: for any non-empty candidate
list it returns one of the candidates (the first author-matching one, or
failing that the first hit), even when no candidate overlaps the query
author. -/
theorem C1_author_rejection :
    (∀ (title author : Option String) (items : List GItem) (b : GItem),
      g_author_lower author ≠ "" →
      fetch_google_book title author items = some b →
      (author_matches (g_author_lower author) (g_author_last (g_author_lower author))
        (joined_authors b.authors)).1 = true)
    ∧ (∀ (isbn title author : Option String) (candidates : List HCCandidate),
      candidates ≠ [] → truthy_opt_str title = true →
      ∃ b, fetch_hardcover_book true isbn title author candidates = some b
        ∧ b ∈ candidates) := by
  constructor
  · intro title author items b hal hfetch
    unfold fetch_google_book at hfetch
    by_cases hi : items = []
    · rw [if_pos hi] at hfetch
      exact absurd hfetch (by simp)
    · rw [if_neg hi] at hfetch
      dsimp only at hfetch
      cases hpick : g_pick_best (py_strip (py_lower (title.getD "")))
          (g_author_lower author) (g_author_last (g_author_lower author)) items with
      | none => rw [hpick] at hfetch; exact absurd hfetch (by simp)
      | some best =>
        rw [hpick] at hfetch
        dsimp only at hfetch
        rw [if_pos hal] at hfetch
        by_cases hm : (author_matches (g_author_lower author)
            (g_author_last (g_author_lower author)) (joined_authors best.authors)).1 = true
        · rw [hm] at hfetch
          simp only [Bool.not_true, Bool.false_eq_true, if_false, Option.some.injEq] at hfetch
          rw [← hfetch]
          exact hm
        · rw [Bool.not_eq_true] at hm
          rw [hm] at hfetch
          simp at hfetch
  · intro isbn title author candidates hne ht
    unfold fetch_hardcover_book
    rw [if_neg (by simp)]
    rw [if_neg (by simp [ht])]
    unfold hc_pick_best
    cases candidates with
    | nil => exact absurd rfl hne
    | cons first rest =>
      dsimp only
      split_ifs with hsa
      · cases hfind : List.find?
            (fun c => re_word_search (hc_author_last (author.getD ""))
              (joined_authors c.authors)) (first :: rest) with
        | none =>
          exact ⟨first, rfl, List.mem_cons_self first rest⟩
        | some c =>
          exact ⟨c, rfl, List.mem_of_find?_eq_some hfind⟩
      · exact ⟨first, rfl, List.mem_cons_self first rest⟩

theorem C1_author_rejection_witness :
    (author_matches (g_author_lower (some "Giana Darling"))
        (g_author_last (g_author_lower (some "Giana Darling")))
        (joined_authors ["Giana Darling"])).1 = true
    ∧ ∃ b, fetch_hardcover_book true none (some "Paper Hearts") (some "Jane Smith")
          [⟨"Paper Hearts", ["Smithson"], some "desc", []⟩] = some b
        ∧ b ∈ [(⟨"Paper Hearts", ["Smithson"], some "desc", []⟩ : HCCandidate)] :=
  ⟨C1_author_rejection.1 (some "The Fallen") (some "Giana Darling")
      [⟨"The Fallen", ["Giana Darling"], some "d", none⟩]
      ⟨"The Fallen", ["Giana Darling"], some "d", none⟩ (by decide) (by decide),
   C1_author_rejection.2 none (some "Paper Hearts") (some "Jane Smith")
      [⟨"Paper Hearts", ["Smithson"], some "desc", []⟩] (by decide) (by decide)⟩

end StyleScope
